import Mathlib

/-!
Verification of the prompt-construction and document-assembly pipeline of the
Automated-Question-Generator repository (source: `src/high.py`).

Python strings are embedded as `List Char`; stdlib helpers used by the source
(`textwrap.dedent`, `str.splitlines`, `str.strip`, byte decoding with
replacement) are embedded as executable Lean functions mirroring their
behaviour.  Side effects (subprocess invocation, HTTP fetching, the
filesystem) are made explicit: the outcome of `subprocess.run` is a record
passed to `call_llm`, and `save_to_docx` takes an environment of fallible
operations plus an explicit filesystem state.
-/

/-- Lines of a text, splitting on the newline character: the embedding of
Python `text.split(chr(10))` as used (via regex line anchors) by
`textwrap.dedent`.  An empty text has one empty line, matching Python. -/
def splitOnNl : List Char → List (List Char)
  | [] => [[]]
  | c :: rest =>
    if c = '\n' then [] :: splitOnNl rest
    else
      match splitOnNl rest with
      | [] => [[c]]
      | l :: ls => (c :: l) :: ls

/-- Join a list of lines with newline characters: the embedding of Python
`chr(10).join(lines)` (`str.join` with separator a newline). -/
def joinNl : List (List Char) → List Char
  | [] => []
  | [l] => l
  | l :: ls => l ++ '\n' :: joinNl ls

/-- Whitespace characters recognised by Python `str.strip()` (the ASCII
whitespace set; the source never feeds other Unicode whitespace through
`strip`). -/
def isPyWs (c : Char) : Bool :=
  c == ' ' || c == '\t' || c == '\n' || c == '\r' || c == '\x0b' || c == '\x0c'

/-- Embedding of Python `str.strip()`: remove leading and trailing
whitespace. -/
def pyStrip (s : List Char) : List Char :=
  ((s.dropWhile isPyWs).reverse.dropWhile isPyWs).reverse

/-- Characters matched by the character class of the regex
`r"\([A-Ea-e]\)"` in `detect_options` (src/high.py line 24). -/
def optionLetters : List Char := ['A', 'B', 'C', 'D', 'E', 'a', 'b', 'c', 'd', 'e']

/-- Test whether three consecutive characters match the regex
`r"\([A-Ea-e]\)"`: an opening parenthesis, a letter A-E in either case, and
a closing parenthesis. -/
def isOptMatch (c1 c2 c3 : Char) : Bool :=
  c1 == '(' && c3 == ')' && optionLetters.contains c2

/-- Embedding of `re.findall(r"\([A-Ea-e]\)", s)`: scan left to right and
collect non-overlapping matches, restarting after the end of each match
(the regex matches exactly three characters). -/
def optionScan : List Char → List (List Char)
  | c1 :: c2 :: c3 :: rest =>
    if isOptMatch c1 c2 c3 then [c1, c2, c3] :: optionScan rest
    else optionScan (c2 :: c3 :: rest)
  | _ => []

/-- Embedding of `detect_options` (src/high.py lines 22-25): find all
matches of `r"\([A-Ea-e]\)"` and return the number of distinct matched
substrings (`len(set(matches))`).  The deduplication is case-sensitive,
exactly as Python `set` on the raw matched strings. -/
def detect_options (base_question : List Char) : Nat :=
  (optionScan base_question).dedup.length

/-- Specification-side reformulation used to compare against
`detect_options`: every window of three consecutive characters that matches
the option-marker pattern, collected position by position. -/
def windowMatches : List Char → List (List Char)
  | c1 :: c2 :: c3 :: rest =>
    (if isOptMatch c1 c2 c3 then [[c1, c2, c3]] else []) ++ windowMatches (c2 :: c3 :: rest)
  | _ => []

/-- Specification-side lower-casing of the five option letters, used to
state the claimed case-insensitive deduplication. -/
def lowerOptChar (c : Char) : Char :=
  if c = 'A' then 'a'
  else if c = 'B' then 'b'
  else if c = 'C' then 'c'
  else if c = 'D' then 'd'
  else if c = 'E' then 'e'
  else c

/-- Number of distinct option markers under the case-insensitive
deduplication claimed by the specification: matches are lower-cased before
collapsing duplicates. -/
def ciDistinctCount (s : List Char) : Nat :=
  ((windowMatches s).map (List.map lowerOptChar)).dedup.length

/-- The static curriculum taxonomy `CURRICULUM` (src/high.py lines 13-20):
an ordered list of (Subject, Unit, Topic) triples. -/
def CURRICULUM : List (String × String × String) :=
  [("Quantitative Math", "Problem Solving", "Numbers and Operations"),
   ("Quantitative Math", "Problem Solving", "Algebra"),
   ("Quantitative Math", "Geometry and Measurement", "Area & Volume"),
   ("Quantitative Math", "Numbers and Operations", "Fractions, Decimals, & Percents"),
   ("Quantitative Math", "Data Analysis & Probability", "Probability (Basic, Compound Events)"),
   ("Quantitative Math", "Reasoning", "Word Problems")]

/-- Rendering of one curriculum entry, the embedding of the f-string
`f"- {s} > {u} > {t}"` (src/high.py line 52). -/
def currRender (e : String × String × String) : List Char :=
  "- ".data ++ e.1.data ++ " > ".data ++ e.2.1.data ++ " > ".data ++ e.2.2.data

/-- The option-tag line for loop index `i` out of `option_count` tags
(src/high.py lines 29-33): the final index yields the correct-option tag,
every earlier index a lettered tag using `chr(65+i)`. -/
def optionTag (option_count i : Nat) : List Char :=
  if i = option_count - 1 then "@@option <Correct Option>".data
  else "@option <Option ".data ++ [Char.ofNat (65 + i)] ++ ">".data

/-- The list `option_tags` accumulated by the loop
`for i in range(option_count)` (src/high.py lines 28-33). -/
def optionTags (option_count : Nat) : List (List Char) :=
  (List.range option_count).map (optionTag option_count)

/-- The string `options_block = chr(10).join(option_tags)`
(src/high.py line 34). -/
def optionsBlock (option_count : Nat) : List Char :=
  joinNl (optionTags option_count)

/-- The string spliced for the curriculum enumeration,
`chr(10).join(f"- {s} > {u} > {t}" for s, u, t in CURRICULUM)`
(src/high.py line 52). -/
def curriculumBlock : List Char :=
  joinNl (CURRICULUM.map currRender)

/-- The literal text of the `build_question_format` f-string before the
first splice (src/high.py lines 35-44).  Blank lines inside the source
literal are genuinely empty; every other literal line carries a four-space
indent, including the partial line preceding the splice. -/
def tplA : List Char :=
  "\n    @title <Assessment title, meaningful>\n    @description <Short assessment description>\n\n    // Use this block for each question when adding Multiple Choice Questions (MCQ)\n    @question <Question text here>\n    @instruction <Instruction here>\n    @difficulty <easy|moderate|hard>\n    @Order <Question number>\n    ".data

/-- The literal text of the `build_question_format` f-string between its
two splices (src/high.py lines 44-52). -/
def tplB : List Char :=
  "\n    @explanation <Explanation for correct answer>\n    @subject <Choose exactly from curriculum list>\n    @unit <Choose exactly from curriculum list>\n    @topic <Choose exactly from curriculum list>\n    @plusmarks 1\n\n    The subject, unit, and topic must come from this curriculum list:\n    ".data

/-- The literal text of the `build_question_format` f-string after the
final splice (src/high.py lines 52-53): a newline and the whitespace-only
four-space final line. -/
def tplC : List Char := "\n    ".data

/-- The f-string of `build_question_format` before `textwrap.dedent` is
applied (src/high.py lines 35-53), with the two splices made explicit. -/
def templatePre (option_count : Nat) : List Char :=
  tplA ++ optionsBlock option_count ++ tplB ++ curriculumBlock ++ tplC

/-- Space or tab, the character class `[ \t]` used by the two regexes of
CPython `textwrap.dedent`. -/
def isIndentChar (c : Char) : Bool := c == ' ' || c == '\t'

/-- First phase of CPython `textwrap.dedent`: lines consisting solely of
whitespace are normalized to empty lines
(the `_whitespace_only_re` substitution with empty replacement). -/
def wsNormLine (l : List Char) : List Char :=
  if l.all isIndentChar then [] else l

/-- Leading-whitespace run contributed by one line to the margin
computation of `textwrap.dedent` (`_leading_whitespace_re`): lines with no
content contribute nothing. -/
def lineIndent (l : List Char) : Option (List Char) :=
  match l.dropWhile isIndentChar with
  | [] => none
  | _ :: _ => some (l.takeWhile isIndentChar)

/-- Longest common leading run of two indents, the truncation performed by
the final branch of the margin loop in CPython `textwrap.dedent`. -/
def commonPre : List Char → List Char → List Char
  | a :: as, b :: bs => if a = b then a :: commonPre as bs else []
  | _, _ => []

/-- One step of the margin loop of CPython `textwrap.dedent`: keep the
margin when it leads the next indent, shrink to the indent when the indent
leads the margin, otherwise truncate at the first disagreement. -/
def updMargin : Option (List Char) → List Char → Option (List Char)
  | none, ind => some ind
  | some mg, ind =>
    if mg.isPrefixOf ind then some mg
    else if ind.isPrefixOf mg then some ind
    else some (commonPre mg ind)

/-- The margin computed by CPython `textwrap.dedent` over the
whitespace-normalized lines. -/
def marginOf (lines : List (List Char)) : Option (List Char) :=
  (lines.filterMap lineIndent).foldl updMargin none

/-- Removal of the margin at the start of a line
(the multiline `re.sub` deleting the margin at each line start): lines not starting with the
margin are left unchanged. -/
def stripMargin (mg : List Char) (l : List Char) : List Char :=
  if mg.isPrefixOf l then l.drop mg.length else l

/-- Line-level embedding of CPython `textwrap.dedent`: normalize
whitespace-only lines, compute the common margin of the remaining lines,
and strip it when non-empty (`if margin:`). -/
def dedentLines (ls : List (List Char)) : List (List Char) :=
  let ls1 := ls.map wsNormLine
  match marginOf ls1 with
  | none => ls1
  | some [] => ls1
  | some mg => ls1.map (stripMargin mg)

/-- Embedding of `textwrap.dedent` on a text: split into lines, dedent,
and rejoin. -/
def dedent (s : List Char) : List Char :=
  joinNl (dedentLines (splitOnNl s))

/-- Embedding of `build_question_format` (src/high.py lines 26-53): build
the option-tag block from the option count, splice it and the curriculum
enumeration into the fixed template, and apply `textwrap.dedent`. -/
def build_question_format (option_count : Nat) : List Char :=
  dedent (templatePre option_count)

/-- The literal framing text of the `build_prompt` f-string before the
base-question splice (src/high.py lines 58-66). -/
def pmtA : List Char :=
  "\nYou are an expert educational content creator.\nGenerate ONE new question that is exactly the same type as the Base Question.\nDo not change the mathematical concept — only change surface details like names, objects, and numbers.\nKeep LaTeX math notation unchanged.\nPreserve any image references in ![](url) format.\n\nBase Question:\n".data

/-- The literal framing text of the `build_prompt` f-string between the
base-question splice and the question-format splice (src/high.py lines
66-69). -/
def pmtB : List Char :=
  "\n\nFollow this exact output format (tags must be on separate lines):\n".data

/-- The literal framing text of the `build_prompt` f-string after the
question-format splice (src/high.py lines 69-76). -/
def pmtC : List Char :=
  "\n\nEnsure:\n- Same math skill tested.\n- Correct answer logic matches the base question\x27s method.\n- Subject, unit, and topic tags match EXACTLY from the curriculum list.\n- @subject, @unit, @topic are each on their own line.\n".data

/-- Embedding of `build_prompt` (src/high.py lines 54-76): detect the
option count of the base question, build the question format, and wrap
both in the fixed instructional framing text.  The `order_num` parameter
is accepted exactly as in the source, which never references it in the
returned f-string. -/
def build_prompt (base_question : List Char) (order_num : Nat) : List Char :=
  pmtA ++ base_question ++ pmtB
    ++ build_question_format (detect_options base_question) ++ pmtC

/-- The Unicode replacement character U+FFFD produced by Python byte
decoding with `errors="replace"`. -/
def replChar : Char := Char.ofNat 0xFFFD

/-- UTF-8 continuation byte test. -/
def isContByte (b : Nat) : Bool := 0x80 ≤ b && b < 0xC0

/-- Valid second byte of a three-byte UTF-8 sequence for lead byte `b`
(rejecting overlong encodings and surrogates as CPython does). -/
def cont3ok (b b2 : Nat) : Bool :=
  if b = 0xE0 then 0xA0 ≤ b2 && b2 < 0xC0
  else if b = 0xED then 0x80 ≤ b2 && b2 < 0xA0
  else isContByte b2

/-- Valid second byte of a four-byte UTF-8 sequence for lead byte `b`
(rejecting overlong encodings and values above U+10FFFF as CPython does). -/
def cont4ok (b b2 : Nat) : Bool :=
  if b = 0xF0 then 0x90 ≤ b2 && b2 < 0xC0
  else if b = 0xF4 then 0x80 ≤ b2 && b2 < 0x90
  else isContByte b2

/-- Recursive worker for the UTF-8 decoder.  The fuel argument makes the
recursion structural; it is initialised to the byte count, and since every
step consumes at least one byte the zero-fuel arm is never reached from
`utf8DecodeReplace`. -/
def utf8DecodeAux : Nat → List Nat → List Char
  | 0, _ => []
  | _, [] => []
  | fuel + 1, b :: rest =>
    if b < 0x80 then Char.ofNat b :: utf8DecodeAux fuel rest
    else if b < 0xC2 then replChar :: utf8DecodeAux fuel rest
    else if b < 0xE0 then
      match rest with
      | [] => [replChar]
      | b2 :: r2 =>
        if isContByte b2 then
          Char.ofNat ((b - 0xC0) * 64 + (b2 - 0x80)) :: utf8DecodeAux fuel r2
        else replChar :: utf8DecodeAux fuel (b2 :: r2)
    else if b < 0xF0 then
      match rest with
      | [] => [replChar]
      | b2 :: r2 =>
        if cont3ok b b2 then
          match r2 with
          | [] => [replChar]
          | b3 :: r3 =>
            if isContByte b3 then
              Char.ofNat ((b - 0xE0) * 4096 + (b2 - 0x80) * 64 + (b3 - 0x80)) :: utf8DecodeAux fuel r3
            else replChar :: utf8DecodeAux fuel (b3 :: r3)
        else replChar :: utf8DecodeAux fuel (b2 :: r2)
    else if b < 0xF5 then
      match rest with
      | [] => [replChar]
      | b2 :: r2 =>
        if cont4ok b b2 then
          match r2 with
          | [] => [replChar]
          | b3 :: r3 =>
            if isContByte b3 then
              match r3 with
              | [] => [replChar]
              | b4 :: r4 =>
                if isContByte b4 then
                  Char.ofNat ((b - 0xF0) * 262144 + (b2 - 0x80) * 4096 + (b3 - 0x80) * 64 + (b4 - 0x80)) :: utf8DecodeAux fuel r4
                else replChar :: utf8DecodeAux fuel (b4 :: r4)
            else replChar :: utf8DecodeAux fuel (b3 :: r3)
        else replChar :: utf8DecodeAux fuel (b2 :: r2)
    else replChar :: utf8DecodeAux fuel rest

/-- Embedding of Python `bytes.decode("utf-8", errors="replace")`: a total
decoder that replaces each maximal invalid subsequence with U+FFFD and
never raises. -/
def utf8DecodeReplace (bs : List Nat) : List Char := utf8DecodeAux bs.length bs

/-- Outcome of the `subprocess.run(["ollama", "run", LOCAL_MODEL], ...)`
invocation in `call_llm` (src/high.py lines 94-96), made explicit:
whether the executable could be found (`subprocess.run` raises
`FileNotFoundError` otherwise), the exit status, and the captured output
byte streams. -/
structure ProcOutcome where
  found : Bool
  exitCode : Int
  stdoutBytes : List Nat
  stderrBytes : List Nat

/-- The only error `call_llm` can propagate from the subprocess call:
the `FileNotFoundError` raised when the executable is absent. -/
inductive CallError where
  | fileNotFound
deriving DecidableEq

/-- The fixed placeholder payload returned by `call_llm` when the local
model is disabled (src/high.py line 99). -/
def placeholderText : List Char :=
  "@title Placeholder\n@description This is a placeholder question\n...".data

/-- Embedding of `call_llm` (src/high.py lines 92-99).  With the local
model enabled it runs the external process (outcome `proc`); if the
executable is absent the `FileNotFoundError` propagates, otherwise the
captured stdout is decoded with replacement, stripped, and returned —
the exit code and stderr are never consulted.  With the local model
disabled the fixed placeholder is returned.  The prompt itself is only
written to the stdin of the process and does not influence the returned
value. -/
def call_llm (prompt : List Char) (use_local_model : Bool) (proc : ProcOutcome) :
    Except CallError (List Char) :=
  if use_local_model then
    if proc.found then Except.ok (pyStrip (utf8DecodeReplace proc.stdoutBytes))
    else Except.error CallError.fileNotFound
  else Except.ok placeholderText

/-- One block of the assembled document: a heading, a text paragraph, or
an embedded picture at a fixed display width in inches. -/
inductive Block where
  | heading (text : List Char) (level : Nat)
  | para (text : List Char)
  | picture (source : List Char) (widthInches : Nat)
deriving DecidableEq

/-- Environment of the fallible operations used while assembling the
document (src/high.py lines 108-121): `requests.get` followed by
`raise_for_status` (error value = exception text, success value = response
content), `Path.exists`, and `doc.add_picture` on a byte stream or on a
local path (which can raise on unrecognised image data). -/
structure DocEnv where
  httpGet : List Char → Except (List Char) (List Char)
  pathExists : List Char → Bool
  addPictureStream : List Char → Except (List Char) Unit
  addPictureFile : List Char → Except (List Char) Unit

/-- Embedding of Python `str.splitlines()` for the line separators the
pipeline can encounter (`\n`, `\r`, `\r\n`): no trailing empty line is
produced for a terminal separator, and the empty string has no lines. -/
def pySplitlinesAux (acc : List Char) : List Char → List (List Char)
  | [] => [acc.reverse]
  | '\r' :: '\n' :: rest =>
    acc.reverse :: (match rest with | [] => [] | _ :: _ => pySplitlinesAux [] rest)
  | '\n' :: rest =>
    acc.reverse :: (match rest with | [] => [] | _ :: _ => pySplitlinesAux [] rest)
  | '\r' :: rest =>
    acc.reverse :: (match rest with | [] => [] | _ :: _ => pySplitlinesAux [] rest)
  | c :: rest => pySplitlinesAux (c :: acc) rest

/-- Python `out.splitlines()` (src/high.py line 105). -/
def pySplitlines (s : List Char) : List (List Char) :=
  match s with
  | [] => []
  | _ :: _ => pySplitlinesAux [] s

/-- The image-reference test and extraction of `save_to_docx`
(src/high.py lines 106-107): a line whose stripped form starts with
`![](` and ends with `)` yields the stripped inner reference
`line.strip()[4:-1].strip()`. -/
def extractImageRef (line : List Char) : Option (List Char) :=
  let t := pyStrip line
  if "![](".data.isPrefixOf t && ")".data.isSuffixOf t then
    some (pyStrip ((t.drop 4).dropLast))
  else none

/-- The paragraph recorded when loading an image raises
(src/high.py line 121): `f"[Failed to load image: {img_url}] Error: {e}"`. -/
def failPara (img_url e : List Char) : Block :=
  Block.para ("[Failed to load image: ".data ++ img_url ++ "] Error: ".data ++ e)

/-- Resolution of one extracted image reference (src/high.py lines
108-121): an HTTP reference is fetched and embedded from the response
stream, a local reference is embedded when the path exists and otherwise
recorded as a not-found paragraph; any exception inside the `try` block
(fetch failure, bad status, unrecognised image) becomes a failure
paragraph instead of propagating. -/
def processImageLine (env : DocEnv) (img_url : List Char) : List Block :=
  if "http".data.isPrefixOf img_url then
    match env.httpGet img_url with
    | Except.error e => [failPara img_url e]
    | Except.ok content =>
      match env.addPictureStream content with
      | Except.error e => [failPara img_url e]
      | Except.ok _ => [Block.picture content 4]
  else
    if env.pathExists img_url then
      match env.addPictureFile img_url with
      | Except.error e => [failPara img_url e]
      | Except.ok _ => [Block.picture img_url 4]
    else [Block.para ("[Image not found: ".data ++ img_url ++ "]".data)]

/-- Processing of one output line (src/high.py lines 105-123): an
image-reference line is resolved through `processImageLine`, every other
line becomes a paragraph holding the original line verbatim. -/
def processLine (env : DocEnv) (line : List Char) : List Block :=
  match extractImageRef line with
  | some img_url => processImageLine env img_url
  | none => [Block.para line]

/-- The blocks contributed by the output at 1-based position `i`
(src/high.py lines 103-123): a section-marker paragraph followed by the
blocks of each of its lines. -/
def sectionBlocks (env : DocEnv) (i : Nat) (out : List Char) : List Block :=
  Block.para ("--- Question ".data ++ (toString i).data ++ " ---".data)
    :: (pySplitlines out).flatMap (processLine env)

/-- The full document assembled by `save_to_docx` before saving
(src/high.py lines 101-123): the top-level heading followed by one
section per output, enumerated from 1. -/
def assembleDoc (env : DocEnv) (outputs : List (List Char)) : List Block :=
  Block.heading "Generated Questions".data 1
    :: (outputs.enum.flatMap fun p => sectionBlocks env (p.1 + 1) p.2)

/-- Explicit filesystem state threaded through the save operation: the
set of existing directories and the files written so far. -/
structure DocFS where
  dirs : List (List String)
  files : List (List String × List Block)

/-- Parent directory of a path. -/
def parentDir (p : List String) : List String := p.dropLast

/-- Embedding of `doc.save(str(path))` (src/high.py line 124): writing
the document succeeds exactly when the parent directory of the
destination already exists, and performs no directory creation —
otherwise the save raises (`FileNotFoundError` from `open`). -/
def docSave (fs : DocFS) (p : List String) (d : List Block) : Except (List Char) DocFS :=
  if parentDir p ∈ fs.dirs then Except.ok { fs with files := (p, d) :: fs.files }
  else Except.error "No such file or directory".data

/-- Embedding of `save_to_docx` (src/high.py lines 100-125): assemble the
document from the outputs and save it at the destination path.  The
function itself contains no directory creation (the only `mkdir` in the
source is in `init_app`, line 81, for the default output path). -/
def save_to_docx (env : DocEnv) (outputs : List (List Char)) (path : List String)
    (fs : DocFS) : Except (List Char) DocFS :=
  docSave fs path (assembleDoc env outputs)

/-- The four-space indent carried by each literal line of the template
f-string. -/
def sp4 : List Char := "    ".data

/-- Line decomposition of an f-string splice sitting after a four-space
indent: the indent merges into the first spliced line, and an empty splice
leaves a whitespace-only indent line. -/
def indentFirst (ls : List (List Char)) : List (List Char) :=
  match ls with
  | [] => [sp4]
  | l :: rest => (sp4 ++ l) :: rest

/-- The lines of `tplA` (everything before the options splice). -/
def templateHeadLines : List (List Char) :=
  [[],
   "    @title <Assessment title, meaningful>".data,
   "    @description <Short assessment description>".data,
   [],
   "    // Use this block for each question when adding Multiple Choice Questions (MCQ)".data,
   "    @question <Question text here>".data,
   "    @instruction <Instruction here>".data,
   "    @difficulty <easy|moderate|hard>".data,
   "    @Order <Question number>".data]

/-- The full lines of `tplB` (between the options splice and the
curriculum splice). -/
def templateMidLines : List (List Char) :=
  ["    @explanation <Explanation for correct answer>".data,
   "    @subject <Choose exactly from curriculum list>".data,
   "    @unit <Choose exactly from curriculum list>".data,
   "    @topic <Choose exactly from curriculum list>".data,
   "    @plusmarks 1".data,
   [],
   "    The subject, unit, and topic must come from this curriculum list:".data]

/-- The lines contributed by the curriculum splice, with the four-space
indent merged into the first rendered entry. -/
def curriculumLines : List (List Char) := indentFirst (CURRICULUM.map currRender)

/-- The lines of the template text before `textwrap.dedent`. -/
def templateLinesRaw (n : Nat) : List (List Char) :=
  templateHeadLines ++ indentFirst (optionTags n) ++ templateMidLines ++ curriculumLines ++ [sp4]

/-- The option-splice lines after the whitespace-only normalization of
`textwrap.dedent`: an empty splice leaves an empty line. -/
def optionLinesNorm (n : Nat) : List (List Char) :=
  match optionTags n with
  | [] => [[]]
  | l :: rest => (sp4 ++ l) :: rest

/-- The lines of the text returned by `build_question_format`: the raw
lines with both whitespace-only lines normalized to empty (the computed
dedent margin is empty because the spliced curriculum lines start at
column zero). -/
def templateLinesFinal (n : Nat) : List (List Char) :=
  templateHeadLines ++ optionLinesNorm n ++ templateMidLines ++ curriculumLines ++ [[]]

/-- Removal of the leading spaces of a line, used to classify template
lines independently of the four-space indent kept by the dedent (whose
margin is empty). -/
def deIndent (l : List Char) : List Char := l.dropWhile (fun c => c == ' ')

/-- Test for a lettered option-placeholder line of the template. -/
def isLetteredOptLine (l : List Char) : Bool := "@option ".data.isPrefixOf (deIndent l)

/-- Test for the correct-option line of the template. -/
def isCorrectOptLine (l : List Char) : Bool := "@@option".data.isPrefixOf (deIndent l)

/-- Number of lettered `@option` lines in a text. -/
def letteredOptCount (s : List Char) : Nat := (splitOnNl s).countP isLetteredOptLine

/-- Number of correct-option `@@option` lines in a text. -/
def correctOptCount (s : List Char) : Nat := (splitOnNl s).countP isCorrectOptLine

/-- The option-tag lines of a text, in order, with indentation removed. -/
def optionTagLines (s : List Char) : List (List Char) :=
  ((splitOnNl s).map deIndent).filter (fun l => isLetteredOptLine l || isCorrectOptLine l)

/-- Concrete environment in which every remote fetch fails, no local path
exists, and no image data is recognised; used to instantiate the
error-handling theorems. -/
def envAllFail : DocEnv :=
  { httpGet := fun _ => Except.error "connection error".data,
    pathExists := fun _ => false,
    addPictureStream := fun _ => Except.error "unrecognized image".data,
    addPictureFile := fun _ => Except.error "unrecognized image".data }

/-- Concrete empty filesystem: no directories, no files. -/
def fsEmpty : DocFS := { dirs := [], files := [] }

/-- Concrete filesystem containing only the documents directory. -/
def fsDocs : DocFS := { dirs := [["home", "Documents"]], files := [] }

set_option maxRecDepth 40000

theorem joinNl_cons_cons (a b : List Char) (ls : List (List Char)) :
    joinNl (a :: b :: ls) = a ++ '\n' :: joinNl (b :: ls) := rfl

theorem joinNl_append (xs ys : List (List Char)) (hx : xs ≠ []) (hy : ys ≠ []) :
    joinNl (xs ++ ys) = joinNl xs ++ '\n' :: joinNl ys := by
  induction xs with
  | nil => exact absurd rfl hx
  | cons a as ih =>
    cases as with
    | nil =>
      cases ys with
      | nil => exact absurd rfl hy
      | cons b bs => simp [joinNl_cons_cons, joinNl]
    | cons a2 as2 =>
      calc joinNl ((a :: a2 :: as2) ++ ys)
          = a ++ '\n' :: joinNl ((a2 :: as2) ++ ys) := rfl
        _ = a ++ '\n' :: (joinNl (a2 :: as2) ++ '\n' :: joinNl ys) := by
              rw [ih (by simp)]
        _ = joinNl (a :: a2 :: as2) ++ '\n' :: joinNl ys := by
              rw [joinNl_cons_cons]; simp

theorem splitOnNl_not_mem (a : List Char) (h : '\n' ∉ a) : splitOnNl a = [a] := by
  induction a with
  | nil => rfl
  | cons c cs ih =>
    have hc : c ≠ '\n' := by intro hc; exact h (hc ▸ List.mem_cons_self c cs)
    have hcs : '\n' ∉ cs := fun hm => h (List.mem_cons_of_mem c hm)
    simp [splitOnNl, hc, ih hcs]

theorem splitOnNl_append_nl (a b : List Char) (h : '\n' ∉ a) :
    splitOnNl (a ++ '\n' :: b) = a :: splitOnNl b := by
  induction a with
  | nil => simp [splitOnNl]
  | cons c cs ih =>
    have hc : c ≠ '\n' := by intro hc; exact h (hc ▸ List.mem_cons_self c cs)
    have hcs : '\n' ∉ cs := fun hm => h (List.mem_cons_of_mem c hm)
    have hrw := ih hcs
    simp only [List.cons_append, splitOnNl, hc, if_false]
    rw [show cs.append ('\n' :: b) = cs ++ '\n' :: b from rfl, hrw]

theorem splitOnNl_joinNl (L : List (List Char)) (hne : L ≠ [])
    (h : ∀ l ∈ L, '\n' ∉ l) : splitOnNl (joinNl L) = L := by
  induction L with
  | nil => exact absurd rfl hne
  | cons a as ih =>
    cases as with
    | nil => exact splitOnNl_not_mem a (h a (List.mem_cons_self a []))
    | cons b bs =>
      rw [joinNl_cons_cons, splitOnNl_append_nl a _ (h a (List.mem_cons_self a _)),
        ih (by simp) (fun l hl => h l (List.mem_cons_of_mem a hl))]

theorem mem_infix_joinNl (l : List Char) (L : List (List Char)) (h : l ∈ L) :
    l <:+: joinNl L := by
  induction L with
  | nil => simp at h
  | cons a as ih =>
    rcases List.mem_cons.mp h with rfl | hmem
    · cases as with
      | nil => exact List.infix_refl l
      | cons b bs =>
        rw [joinNl_cons_cons]
        exact ⟨[], '\n' :: joinNl (b :: bs), by simp⟩
    · cases as with
      | nil => simp at hmem
      | cons b bs =>
        rw [joinNl_cons_cons]
        exact (ih hmem).trans ⟨a ++ ['\n'], [], by simp⟩

theorem indentFirst_ne_nil (ls : List (List Char)) : indentFirst ls ≠ [] := by
  cases ls <;> simp [indentFirst]

theorem joinNl_indentFirst (ls : List (List Char)) :
    joinNl (indentFirst ls) = sp4 ++ joinNl ls := by
  match ls with
  | [] => simp [indentFirst, joinNl]
  | [l] => simp [indentFirst, joinNl]
  | l :: l2 :: rest =>
    show joinNl ((sp4 ++ l) :: l2 :: rest) = sp4 ++ joinNl (l :: l2 :: rest)
    rw [joinNl_cons_cons, joinNl_cons_cons, List.append_assoc]

theorem charOfNat_add65_ne_nl (i : Nat) : Char.ofNat (65 + i) ≠ '\n' := by
  intro h
  have h2 := congrArg Char.toNat h
  have h3 : Char.toNat '\n' = 10 := by decide
  rw [h3] at h2
  by_cases hv : (65 + i).isValidChar
  · simp [Char.ofNat, hv, Char.ofNatAux, Char.toNat, UInt32.toNat, BitVec.toNat_ofNatLt] at h2
    omega
  · simp [Char.ofNat, hv, Char.toNat, UInt32.toNat, BitVec.toNat_ofNatLt] at h2

theorem nl_not_mem_optionTag (n i : Nat) : '\n' ∉ optionTag n i := by
  by_cases h : i = n - 1
  · rw [optionTag, if_pos h]; decide
  · rw [optionTag, if_neg h]
    intro hmem
    rcases List.mem_append.mp hmem with h1 | h2
    · rcases List.mem_append.mp h1 with h11 | h12
      · exact absurd h11 (by decide)
      · rw [List.mem_singleton] at h12
        exact charOfNat_add65_ne_nl i h12.symm
    · exact absurd h2 (by decide)

theorem nl_not_mem_optionTags (n : Nat) : ∀ l ∈ optionTags n, '\n' ∉ l := by
  intro l hl
  rcases List.mem_map.mp hl with ⟨i, _, rfl⟩
  exact nl_not_mem_optionTag n i

theorem nl_not_mem_indentFirst (L : List (List Char)) (hL : ∀ l ∈ L, '\n' ∉ l) :
    ∀ l ∈ indentFirst L, '\n' ∉ l := by
  intro l hl
  match L, hl with
  | [], hl =>
    rw [indentFirst, List.mem_singleton] at hl
    subst hl; decide
  | x :: xs, hl =>
    rw [indentFirst] at hl
    rcases List.mem_cons.mp hl with rfl | hmem
    · intro hmem2
      rcases List.mem_append.mp hmem2 with h1 | h2
      · exact absurd h1 (by decide)
      · exact hL x (List.mem_cons_self x xs) h2
    · exact hL l (List.mem_cons_of_mem x hmem)

theorem nl_not_mem_templateLinesRaw (n : Nat) : ∀ l ∈ templateLinesRaw n, '\n' ∉ l := by
  intro l hl
  rw [templateLinesRaw] at hl
  rcases List.mem_append.mp hl with h1 | h2
  rcases List.mem_append.mp h1 with h3 | h4
  rcases List.mem_append.mp h3 with h5 | h6
  rcases List.mem_append.mp h5 with h7 | h8
  · exact (by decide : ∀ x ∈ templateHeadLines, '\n' ∉ x) l h7
  · exact nl_not_mem_indentFirst _ (nl_not_mem_optionTags n) l h8
  · exact (by decide : ∀ x ∈ templateMidLines, '\n' ∉ x) l h6
  · exact (by decide : ∀ x ∈ curriculumLines, '\n' ∉ x) l h4
  · rw [List.mem_singleton] at h2; subst h2; decide

theorem optionLinesNorm_cases (n : Nat) :
    optionLinesNorm n = [[]] ∧ optionTags n = [] ∨
    ∃ t ts, optionTags n = t :: ts ∧ optionLinesNorm n = (sp4 ++ t) :: ts := by
  rw [optionLinesNorm]
  cases h : optionTags n with
  | nil => exact Or.inl ⟨rfl, rfl⟩
  | cons t ts => exact Or.inr ⟨t, ts, rfl, rfl⟩

theorem nl_not_mem_templateLinesFinal (n : Nat) : ∀ l ∈ templateLinesFinal n, '\n' ∉ l := by
  intro l hl
  rw [templateLinesFinal] at hl
  rcases List.mem_append.mp hl with h1 | h2
  rcases List.mem_append.mp h1 with h3 | h4
  rcases List.mem_append.mp h3 with h5 | h6
  rcases List.mem_append.mp h5 with h7 | h8
  · exact (by decide : ∀ x ∈ templateHeadLines, '\n' ∉ x) l h7
  · rcases optionLinesNorm_cases n with ⟨he, _⟩ | ⟨t, ts, ht, he⟩
    · rw [he, List.mem_singleton] at h8; subst h8; decide
    · rw [he] at h8
      rcases List.mem_cons.mp h8 with rfl | hmem
      · intro hmem2
        rcases List.mem_append.mp hmem2 with ha | hb
        · exact absurd ha (by decide)
        · exact nl_not_mem_optionTags n t (ht ▸ List.mem_cons_self t ts) hb
      · exact nl_not_mem_optionTags n l (ht ▸ List.mem_cons_of_mem t hmem)
  · exact (by decide : ∀ x ∈ templateMidLines, '\n' ∉ x) l h6
  · exact (by decide : ∀ x ∈ curriculumLines, '\n' ∉ x) l h4
  · rw [List.mem_singleton] at h2; subst h2; decide

theorem templateLinesRaw_ne_nil (n : Nat) : templateLinesRaw n ≠ [] := by
  rw [templateLinesRaw]
  intro h
  exact List.cons_ne_nil sp4 [] (List.append_eq_nil.mp h).2

theorem templateLinesFinal_ne_nil (n : Nat) : templateLinesFinal n ≠ [] := by
  rw [templateLinesFinal]
  intro h
  exact List.cons_ne_nil [] [] (List.append_eq_nil.mp h).2

theorem templatePre_eq (n : Nat) : templatePre n = joinNl (templateLinesRaw n) := by
  have hA : tplA = joinNl templateHeadLines ++ '\n' :: sp4 := by decide
  have hB : tplB = '\n' :: (joinNl templateMidLines ++ '\n' :: sp4) := by decide
  have hC : tplC = '\n' :: sp4 := by decide
  have hne4 : (templateHeadLines : List (List Char)) ≠ [] := by decide
  have hne5 : (templateMidLines : List (List Char)) ≠ [] := by decide
  have hne6 : (curriculumLines : List (List Char)) ≠ [] := indentFirst_ne_nil _
  have hne7 : ([sp4] : List (List Char)) ≠ [] := by decide
  have hne3 : templateHeadLines ++ indentFirst (optionTags n) ≠ [] := by
    intro h; exact indentFirst_ne_nil (optionTags n) (List.append_eq_nil.mp h).2
  have hne2 : templateHeadLines ++ indentFirst (optionTags n) ++ templateMidLines ≠ [] := by
    intro h; exact hne5 (List.append_eq_nil.mp h).2
  have hne1 : templateHeadLines ++ indentFirst (optionTags n) ++ templateMidLines ++ curriculumLines ≠ [] := by
    intro h; exact hne6 (List.append_eq_nil.mp h).2
  rw [templatePre, templateLinesRaw,
    joinNl_append _ _ hne1 hne7,
    joinNl_append _ _ hne2 hne6,
    joinNl_append _ _ hne3 hne5,
    joinNl_append _ _ hne4 (indentFirst_ne_nil _),
    joinNl_indentFirst,
    show joinNl curriculumLines = sp4 ++ curriculumBlock from joinNl_indentFirst _,
    show joinNl (optionTags n) = optionsBlock n from rfl,
    show joinNl [sp4] = sp4 from rfl,
    hA, hB, hC]
  simp [List.append_assoc]

theorem optionTag_not_ws (n i : Nat) : (optionTag n i).all isIndentChar = false := by
  by_cases h : i = n - 1
  · rw [optionTag, if_pos h]; decide
  · rw [optionTag, if_neg h]
    have hlit : ("@option <Option ".data).all isIndentChar = false := by decide
    rw [List.all_append, List.all_append, hlit]
    rfl

theorem wsNorm_optionTag (n i : Nat) : wsNormLine (optionTag n i) = optionTag n i := by
  simp [wsNormLine, optionTag_not_ws]

theorem wsNorm_sp4_optionTag (n i : Nat) :
    wsNormLine (sp4 ++ optionTag n i) = sp4 ++ optionTag n i := by
  simp [wsNormLine, List.all_append, optionTag_not_ws]

theorem map_wsNorm_indentFirst_optionTags (n : Nat) :
    (indentFirst (optionTags n)).map wsNormLine = optionLinesNorm n := by
  cases hn : optionTags n with
  | nil =>
    rw [optionLinesNorm, hn]
    show [wsNormLine sp4] = [[]]
    decide
  | cons t ts =>
    rw [optionLinesNorm, hn]
    show wsNormLine (sp4 ++ t) :: ts.map wsNormLine = (sp4 ++ t) :: ts
    have hmem : ∀ x ∈ optionTags n, wsNormLine x = x := by
      intro x hx
      rcases List.mem_map.mp hx with ⟨i, _, rfl⟩
      exact wsNorm_optionTag n i
    have ht0 : wsNormLine (sp4 ++ t) = sp4 ++ t := by
      rcases List.mem_map.mp (hn ▸ List.mem_cons_self t ts) with ⟨i, _, rfl⟩
      exact wsNorm_sp4_optionTag n i
    have hts : ts.map wsNormLine = ts := by
      have : ts.map wsNormLine = ts.map id :=
        List.map_congr_left fun x hx => hmem x (hn ▸ List.mem_cons_of_mem t hx)
      simpa using this
    rw [ht0, hts]

theorem map_wsNorm_templateLines (n : Nat) :
    (templateLinesRaw n).map wsNormLine = templateLinesFinal n := by
  have h1 : templateHeadLines.map wsNormLine = templateHeadLines := by decide
  have h2 : templateMidLines.map wsNormLine = templateMidLines := by decide
  have h3 : curriculumLines.map wsNormLine = curriculumLines := by decide
  have h4 : [sp4].map wsNormLine = [[]] := by decide
  rw [templateLinesRaw, templateLinesFinal]
  simp only [List.map_append]
  rw [h1, h2, h3, h4, map_wsNorm_indentFirst_optionTags]

theorem updMargin_nil_indent (m : Option (List Char)) : updMargin m [] = some [] := by
  match m with
  | none => rfl
  | some [] => rfl
  | some (c :: cs) => rfl

theorem foldl_updMargin_tail (m : Option (List Char)) :
    List.foldl updMargin m [sp4, [], [], [], [], []] = some [] := by
  simp [List.foldl_cons, updMargin_nil_indent]

theorem marginOf_templateLinesFinal (n : Nat) : marginOf (templateLinesFinal n) = some [] := by
  have hcurr : List.filterMap lineIndent curriculumLines = [sp4, [], [], [], [], []] := by decide
  have hlast : List.filterMap lineIndent [([] : List Char)] = [] := by decide
  rw [marginOf, templateLinesFinal]
  rw [List.filterMap_append, List.filterMap_append, List.filterMap_append, List.filterMap_append]
  rw [hcurr, hlast, List.foldl_append, List.foldl_append]
  rw [foldl_updMargin_tail, List.foldl_nil]

theorem dedentLines_templateLinesRaw (n : Nat) :
    dedentLines (templateLinesRaw n) = templateLinesFinal n := by
  rw [dedentLines, map_wsNorm_templateLines, marginOf_templateLinesFinal]

theorem build_question_format_lines (n : Nat) :
    build_question_format n = joinNl (templateLinesFinal n) := by
  rw [build_question_format, dedent, templatePre_eq,
    splitOnNl_joinNl _ (templateLinesRaw_ne_nil n) (nl_not_mem_templateLinesRaw n),
    dedentLines_templateLinesRaw]

theorem splitOnNl_build_question_format (n : Nat) :
    splitOnNl (build_question_format n) = templateLinesFinal n := by
  rw [build_question_format_lines,
    splitOnNl_joinNl _ (templateLinesFinal_ne_nil n) (nl_not_mem_templateLinesFinal n)]

theorem deIndent_optionTag (n i : Nat) : deIndent (optionTag n i) = optionTag n i := by
  by_cases h : i = n - 1
  · rw [optionTag, if_pos h]; rfl
  · rw [optionTag, if_neg h]; rfl

theorem deIndent_sp4 (t : List Char) (ht : deIndent t = t) : deIndent (sp4 ++ t) = t := by
  show List.dropWhile (fun c => c == ' ') (' ' :: ' ' :: ' ' :: ' ' :: t) = t
  rw [List.dropWhile_cons_of_pos (by decide), List.dropWhile_cons_of_pos (by decide),
    List.dropWhile_cons_of_pos (by decide), List.dropWhile_cons_of_pos (by decide)]
  exact ht

theorem optTagLine_pred (n i : Nat) :
    (isLetteredOptLine (optionTag n i) || isCorrectOptLine (optionTag n i)) = true := by
  by_cases h : i = n - 1
  · rw [optionTag, if_pos h]; rfl
  · rw [optionTag, if_neg h]; rfl

theorem optionTags_succ (m : Nat) :
    optionTags (m + 1)
      = optionTag (m + 1) 0 :: (List.range m).map (fun j => optionTag (m + 1) (j + 1)) := by
  rw [optionTags, List.range_succ_eq_map, List.map_cons, List.map_map]
  rfl

theorem optionLinesNorm_succ (m : Nat) :
    optionLinesNorm (m + 1)
      = (sp4 ++ optionTag (m + 1) 0) :: (List.range m).map (fun j => optionTag (m + 1) (j + 1)) := by
  unfold optionLinesNorm
  rw [optionTags_succ]

theorem map_optionTag_range_succ (m : Nat) :
    (List.range (m + 1)).map (optionTag (m + 1))
      = (List.range m).map (fun i => "@option <Option ".data ++ [Char.ofNat (65 + i)] ++ ">".data)
        ++ ["@@option <Correct Option>".data] := by
  rw [List.range_succ, List.map_append, List.map_singleton]
  congr 1
  · apply List.map_congr_left
    intro i hi
    rw [List.mem_range] at hi
    rw [optionTag, if_neg (by omega)]
  · rw [optionTag, if_pos (by omega)]

theorem windowMatches_skip (x : Char) (l : List Char) (hx : x ≠ '(') :
    windowMatches (x :: l) = windowMatches l := by
  match l with
  | [] => rfl
  | [a] => rfl
  | a :: b :: t =>
    have hm : isOptMatch x a b = false := by
      simp [isOptMatch, hx]
    simp [windowMatches, hm]

theorem isOptMatch_true_elim (c1 c2 c3 : Char) (h : isOptMatch c1 c2 c3 = true) :
    c1 = '(' ∧ c2 ≠ '(' ∧ c3 = ')' := by
  simp [isOptMatch, optionLetters] at h
  obtain ⟨⟨h1, h3⟩, h2⟩ := h
  refine ⟨h1, ?_, h3⟩
  rcases h2 with rfl | rfl | rfl | rfl | rfl | rfl | rfl | rfl | rfl | rfl <;> decide

theorem optionScan_eq_windowMatches (s : List Char) : optionScan s = windowMatches s := by
  induction s using optionScan.induct with
  | case1 c1 c2 c3 rest hm ih =>
    obtain ⟨h1, h2, h3⟩ := isOptMatch_true_elim c1 c2 c3 hm
    have hw2 : windowMatches (c2 :: c3 :: rest) = windowMatches (c3 :: rest) :=
      windowMatches_skip c2 (c3 :: rest) h2
    have hw3 : windowMatches (c3 :: rest) = windowMatches rest := by
      apply windowMatches_skip c3 rest
      rw [h3]; decide
    simp [optionScan, windowMatches, hm, ih, hw2, hw3]
  | case2 c1 c2 c3 rest hm ih =>
    have hm' : isOptMatch c1 c2 c3 = false := by
      revert hm; cases isOptMatch c1 c2 c3 <;> simp
    simp [optionScan, windowMatches, hm', ih]
  | case3 t ht =>
    match t, ht with
    | [], _ => rfl
    | [a], _ => rfl
    | [a, b], _ => rfl
    | a :: b :: c :: r, ht => exact absurd rfl (ht a b c r)

theorem infix_build_prompt_of_mem (q : List Char) (num : Nat) (l : List Char)
    (hl : l ∈ templateLinesFinal (detect_options q)) : l <:+: build_prompt q num := by
  have h1 : l <:+: build_question_format (detect_options q) := by
    rw [build_question_format_lines]
    exact mem_infix_joinNl l _ hl
  refine h1.trans ?_
  exact ⟨pmtA ++ q ++ pmtB, pmtC, by simp [build_prompt, List.append_assoc]⟩

/-- Claim C1 counterexample: the specification states that for a detected
option count of 0 the template still emits exactly one correct-option
`@@option` line, but `build_question_format 0` contains no `@@option`
line at all — the loop `for i in range(0)` performs no iterations, so the
options block is empty. -/
theorem build_question_format_zero_correct_tag_cex :
    correctOptCount (build_question_format 0) ≠ 1 := by decide

/-- Claim C1 (amended): when the detected option count is 0 the template
emits zero correct-option `@@option` lines and zero lettered `@option`
lines — the option block is empty (the whitespace-only line left by the
empty splice is normalized to an empty line by `textwrap.dedent`). -/
theorem build_question_format_zero_empty_option_block :
    correctOptCount (build_question_format 0) = 0
    ∧ letteredOptCount (build_question_format 0) = 0 := by decide

/-- Claim C2 counterexample: in "(A)(a)" there is exactly one distinct
marker under the case-insensitive deduplication claimed by the
specification, yet `detect_options` returns 2 — the Python `set` used for
deduplication distinguishes "(A)" from "(a)". -/
theorem detect_options_case_insensitive_cex :
    detect_options "(A)(a)".data = 2
    ∧ ciDistinctCount "(A)(a)".data = 1
    ∧ detect_options "(A)(a)".data ≠ ciDistinctCount "(A)(a)".data := by decide

/-- Claim C2 (amended): for every input string, `detect_options` returns
the number of distinct bracketed letter-option markers counted with
case-sensitive deduplication — equivalently, the number of distinct
three-character windows matching the option pattern, since matches of the
three-character pattern can never overlap. -/
theorem detect_options_eq_distinct_window_count (s : List Char) :
    detect_options s = ((windowMatches s).dedup).length := by
  rw [detect_options, optionScan_eq_windowMatches]

/-- Claim C3 counterexample: with the local model enabled, a process run
that exits with a non-zero status and empty stdout makes `call_llm`
return empty text as success, and malformed output bytes are silently
replaced rather than surfaced — neither failure mode produces an error. -/
theorem call_llm_masks_process_failures_cex :
    call_llm "prompt".data true ⟨true, 2, [], []⟩ = Except.ok []
    ∧ call_llm "prompt".data true ⟨true, 0, [0xFF], []⟩ = Except.ok [replChar] :=
  ⟨rfl, rfl⟩

/-- Claim C3 (amended): `call_llm` surfaces an error only when the
external executable cannot be found (`FileNotFoundError` from
`subprocess.run`); whenever the process launches, the call returns
success with the replacement-decoded, stripped stdout regardless of
exit status or encoding, possibly as empty text. -/
theorem call_llm_error_only_when_not_found (prompt : List Char) (proc : ProcOutcome) :
    (proc.found = true → ∃ s, call_llm prompt true proc = Except.ok s)
    ∧ (proc.found = false →
        call_llm prompt true proc = Except.error CallError.fileNotFound) := by
  constructor
  · intro h
    exact ⟨pyStrip (utf8DecodeReplace proc.stdoutBytes), by simp [call_llm, h]⟩
  · intro h
    simp [call_llm, h]

/-- Witness for claim C3: concrete instantiations of both branches. -/
theorem call_llm_error_only_when_not_found_witness :
    (∃ s, call_llm "p".data true ⟨true, 7, [104, 105], []⟩ = Except.ok s)
    ∧ call_llm "p".data true ⟨false, 0, [], []⟩ = Except.error CallError.fileNotFound :=
  ⟨(call_llm_error_only_when_not_found "p".data ⟨true, 7, [104, 105], []⟩).1 rfl,
   (call_llm_error_only_when_not_found "p".data ⟨false, 0, [], []⟩).2 rfl⟩

/-- Claim C4 counterexample: saving to a destination whose parent
directory does not exist fails instead of creating the missing parent —
`save_to_docx` contains no directory creation (the only `mkdir` in the
source is in `init_app` for the default output path). -/
theorem save_to_docx_missing_parent_cex :
    save_to_docx envAllFail [] ["Documents", "out.docx"] fsEmpty
      = Except.error "No such file or directory".data := rfl

/-- Claim C4 (amended): `save_to_docx` writes the assembled document to a
single file at the destination path when the parent directory already
exists, leaving the directory set unchanged, and fails when the parent
directory is missing; it never creates parent directories. -/
theorem save_to_docx_requires_existing_parent (env : DocEnv) (outputs : List (List Char))
    (path : List String) (fs : DocFS) :
    (parentDir path ∈ fs.dirs →
      save_to_docx env outputs path fs
        = Except.ok { fs with files := (path, assembleDoc env outputs) :: fs.files })
    ∧ (parentDir path ∉ fs.dirs →
      save_to_docx env outputs path fs = Except.error "No such file or directory".data) := by
  constructor
  · intro h; rw [save_to_docx, docSave, if_pos h]
  · intro h; rw [save_to_docx, docSave, if_neg h]

/-- Witness for claim C4: concrete instantiations of both branches. -/
theorem save_to_docx_requires_existing_parent_witness :
    save_to_docx envAllFail [] ["home", "Documents", "w.docx"] fsDocs
      = Except.ok { fsDocs with
          files := [(["home", "Documents", "w.docx"], assembleDoc envAllFail [])] }
    ∧ save_to_docx envAllFail [] ["home", "Documents", "w.docx"] fsEmpty
      = Except.error "No such file or directory".data :=
  ⟨(save_to_docx_requires_existing_parent envAllFail [] ["home", "Documents", "w.docx"] fsDocs).1
      (by decide),
   (save_to_docx_requires_existing_parent envAllFail [] ["home", "Documents", "w.docx"] fsEmpty).2
      (by decide)⟩

/-- Claim C5: for every option count n ≥ 1 the template built by
`build_question_format` contains exactly n-1 lettered `@option` lines,
labeled with consecutive letters starting at A, followed by exactly one
correct-option `@@option` line — stated as an equality on the ordered
list of option-tag lines of the returned text. -/
theorem build_question_format_option_block (n : Nat) (h : 1 ≤ n) :
    optionTagLines (build_question_format n)
      = (List.range (n - 1)).map
          (fun i => "@option <Option ".data ++ [Char.ofNat (65 + i)] ++ ">".data)
        ++ ["@@option <Correct Option>".data] := by
  obtain ⟨m, rfl⟩ : ∃ m, n = m + 1 := ⟨n - 1, by omega⟩
  rw [optionTagLines, splitOnNl_build_question_format, templateLinesFinal]
  simp only [List.map_append, List.filter_append]
  have hH : (templateHeadLines.map deIndent).filter
      (fun l => isLetteredOptLine l || isCorrectOptLine l) = [] := by decide
  have hM : (templateMidLines.map deIndent).filter
      (fun l => isLetteredOptLine l || isCorrectOptLine l) = [] := by decide
  have hC : (curriculumLines.map deIndent).filter
      (fun l => isLetteredOptLine l || isCorrectOptLine l) = [] := by decide
  have hL : (([[]] : List (List Char)).map deIndent).filter
      (fun l => isLetteredOptLine l || isCorrectOptLine l) = [] := by decide
  rw [hH, hM, hC, hL, optionLinesNorm_succ]
  have h0 : deIndent (sp4 ++ optionTag (m + 1) 0) = optionTag (m + 1) 0 :=
    deIndent_sp4 _ (deIndent_optionTag _ 0)
  have hrest : ((List.range m).map (fun j => optionTag (m + 1) (j + 1))).map deIndent
      = (List.range m).map (fun j => optionTag (m + 1) (j + 1)) := by
    rw [List.map_map]
    apply List.map_congr_left
    intro j _
    exact deIndent_optionTag (m + 1) (j + 1)
  rw [List.map_cons, h0, hrest]
  have hkeep : (optionTag (m + 1) 0
        :: (List.range m).map (fun j => optionTag (m + 1) (j + 1))).filter
      (fun l => isLetteredOptLine l || isCorrectOptLine l)
      = optionTag (m + 1) 0 :: (List.range m).map (fun j => optionTag (m + 1) (j + 1)) := by
    apply List.filter_eq_self.mpr
    intro a ha
    rcases List.mem_cons.mp ha with rfl | hmem
    · exact optTagLine_pred (m + 1) 0
    · rcases List.mem_map.mp hmem with ⟨j, _, rfl⟩
      exact optTagLine_pred (m + 1) (j + 1)
  rw [hkeep, ← optionTags_succ, optionTags, map_optionTag_range_succ]
  simp

/-- Witness for claim C5: for n = 3 the option block consists of lettered
lines A and B followed by the correct-option line. -/
theorem build_question_format_option_block_witness :
    1 ≤ 3 ∧ optionTagLines (build_question_format 3)
      = ["@option <Option A>".data, "@option <Option B>".data,
         "@@option <Correct Option>".data] :=
  ⟨by decide, (build_question_format_option_block 3 (by decide)).trans (by decide)⟩

/-- Claim C6: for every base question and order number, the assembled
prompt contains the base question unmodified as a contiguous substring,
and contains every curriculum entry rendered as
"- Subject > Unit > Topic". -/
theorem build_prompt_contains_base_and_curriculum (q : List Char) (num : Nat)
    (e : String × String × String) (he : e ∈ CURRICULUM) :
    q <:+: build_prompt q num ∧ currRender e <:+: build_prompt q num := by
  constructor
  · exact ⟨pmtA, pmtB ++ build_question_format (detect_options q) ++ pmtC,
      by simp [build_prompt, List.append_assoc]⟩
  · have hcurr : ∀ l ∈ curriculumLines, l ∈ templateLinesFinal (detect_options q) := by
      intro l hl
      rw [templateLinesFinal]
      exact List.mem_append.mpr (Or.inl (List.mem_append.mpr (Or.inr hl)))
    fin_cases he
    · refine List.IsInfix.trans ⟨sp4, [], by simp⟩
        (infix_build_prompt_of_mem q num
          (sp4 ++ currRender
            ("Quantitative Math", "Problem Solving", "Numbers and Operations"))
          (hcurr _ (by decide)))
    · exact infix_build_prompt_of_mem q num _ (hcurr _ (by decide))
    · exact infix_build_prompt_of_mem q num _ (hcurr _ (by decide))
    · exact infix_build_prompt_of_mem q num _ (hcurr _ (by decide))
    · exact infix_build_prompt_of_mem q num _ (hcurr _ (by decide))
    · exact infix_build_prompt_of_mem q num _ (hcurr _ (by decide))

/-- Witness for claim C6: a concrete base question and the second
curriculum entry. -/
theorem build_prompt_contains_base_and_curriculum_witness :
    "What is 2+2?".data <:+: build_prompt "What is 2+2?".data 1
    ∧ currRender ("Quantitative Math", "Problem Solving", "Algebra")
        <:+: build_prompt "What is 2+2?".data 1 :=
  build_prompt_contains_base_and_curriculum "What is 2+2?".data 1
    ("Quantitative Math", "Problem Solving", "Algebra") (by decide)

/-- Claim C7: for the output sequence of true lines "line1", an image
reference whose fetch fails, and "line2", document assembly produces (in
order) a paragraph "line1", a paragraph stating the failure, and a
paragraph "line2", without aborting — the assembled block list is given
exactly, and the three paragraphs appear in order as a sublist.  The
embedding is a total function, reflecting that the `try` and `except`
around image resolution keeps every failure local to its own line. -/
theorem assembleDoc_http_failure_isolated (env : DocEnv) (msg : List Char)
    (h : env.httpGet "http://x/y.png".data = Except.error msg) :
    assembleDoc env ["line1".data, "![](http://x/y.png)".data, "line2".data]
      = [Block.heading "Generated Questions".data 1,
         Block.para "--- Question 1 ---".data,
         Block.para "line1".data,
         Block.para "--- Question 2 ---".data,
         failPara "http://x/y.png".data msg,
         Block.para "--- Question 3 ---".data,
         Block.para "line2".data]
    ∧ List.Sublist
        [Block.para "line1".data, failPara "http://x/y.png".data msg,
         Block.para "line2".data]
        (assembleDoc env ["line1".data, "![](http://x/y.png)".data, "line2".data]) := by
  have p1 : processLine env "line1".data = [Block.para "line1".data] := rfl
  have p3 : processLine env "line2".data = [Block.para "line2".data] := rfl
  have p2 : processLine env "![](http://x/y.png)".data
      = [failPara "http://x/y.png".data msg] := by
    have step : processLine env "![](http://x/y.png)".data
        = (match env.httpGet "http://x/y.png".data with
           | Except.error e => [failPara "http://x/y.png".data e]
           | Except.ok content =>
             match env.addPictureStream content with
             | Except.error e => [failPara "http://x/y.png".data e]
             | Except.ok _ => [Block.picture content 4]) := rfl
    rw [step, h]
  have base : assembleDoc env ["line1".data, "![](http://x/y.png)".data, "line2".data]
      = Block.heading "Generated Questions".data 1 ::
        ((Block.para "--- Question 1 ---".data :: (processLine env "line1".data ++ []))
          ++ ((Block.para "--- Question 2 ---".data
                :: (processLine env "![](http://x/y.png)".data ++ []))
            ++ ((Block.para "--- Question 3 ---".data
                  :: (processLine env "line2".data ++ []))
              ++ []))) := rfl
  have heq : assembleDoc env ["line1".data, "![](http://x/y.png)".data, "line2".data]
      = [Block.heading "Generated Questions".data 1,
         Block.para "--- Question 1 ---".data,
         Block.para "line1".data,
         Block.para "--- Question 2 ---".data,
         failPara "http://x/y.png".data msg,
         Block.para "--- Question 3 ---".data,
         Block.para "line2".data] := by
    rw [base, p1, p2, p3]
    rfl
  refine ⟨heq, ?_⟩
  rw [heq]
  exact List.Sublist.cons _ (List.Sublist.cons _ (List.Sublist.cons₂ _ (List.Sublist.cons _
    (List.Sublist.cons₂ _ (List.Sublist.cons _ (List.Sublist.cons₂ _ List.Sublist.slnil))))))

/-- Witness for claim C7: the failing fetch instantiated with an
environment whose every fetch fails with "connection error". -/
theorem assembleDoc_http_failure_isolated_witness :
    assembleDoc envAllFail ["line1".data, "![](http://x/y.png)".data, "line2".data]
      = [Block.heading "Generated Questions".data 1,
         Block.para "--- Question 1 ---".data,
         Block.para "line1".data,
         Block.para "--- Question 2 ---".data,
         failPara "http://x/y.png".data "connection error".data,
         Block.para "--- Question 3 ---".data,
         Block.para "line2".data]
    ∧ List.Sublist
        [Block.para "line1".data, failPara "http://x/y.png".data "connection error".data,
         Block.para "line2".data]
        (assembleDoc envAllFail ["line1".data, "![](http://x/y.png)".data, "line2".data]) :=
  assembleDoc_http_failure_isolated envAllFail "connection error".data rfl

/-- Claim C8: an image-reference line whose extracted reference is a
local path (not starting with "http") that does not exist on the
filesystem is turned into the paragraph "[Image not found: path]" —
no image is embedded and nothing is raised. -/
theorem processLine_missing_local_image_not_found (env : DocEnv) (line ref : List Char)
    (href : extractImageRef line = some ref)
    (hhttp : "http".data.isPrefixOf ref = false)
    (hexists : env.pathExists ref = false) :
    processLine env line = [Block.para ("[Image not found: ".data ++ ref ++ "]".data)] := by
  rw [processLine, href]
  simp [processImageLine, hhttp, hexists]

/-- Witness for claim C8: the line with reference "missing.png" in an
environment where no path exists. -/
theorem processLine_missing_local_image_not_found_witness :
    processLine envAllFail "![](missing.png)".data
      = [Block.para ("[Image not found: ".data ++ "missing.png".data ++ "]".data)] :=
  processLine_missing_local_image_not_found envAllFail "![](missing.png)".data
    "missing.png".data rfl rfl rfl

/-- Claim C9: the assembled prompt does not depend on the order-number
argument — `build_prompt q m` and `build_prompt q n` are equal for all
order numbers m and n, because the source never references `order_num`
in the returned f-string. -/
theorem build_prompt_independent_of_order_num (q : List Char) (m n : Nat) :
    build_prompt q m = build_prompt q n := rfl

/-- Claim C10: saving with an empty outputs sequence does not raise — it
produces a document whose only block is the top-level heading
"Generated Questions" and writes it to the destination (given, as for
any save, that the parent directory exists). -/
theorem save_to_docx_empty_outputs_heading_only (env : DocEnv) (path : List String)
    (fs : DocFS) (h : parentDir path ∈ fs.dirs) :
    assembleDoc env [] = [Block.heading "Generated Questions".data 1]
    ∧ save_to_docx env [] path fs
        = Except.ok { fs with
            files := (path, [Block.heading "Generated Questions".data 1]) :: fs.files } := by
  refine ⟨rfl, ?_⟩
  rw [save_to_docx, docSave, if_pos h]
  rfl

/-- Witness for claim C10: the empty save into the documents directory. -/
theorem save_to_docx_empty_outputs_heading_only_witness :
    assembleDoc envAllFail [] = [Block.heading "Generated Questions".data 1]
    ∧ save_to_docx envAllFail [] ["home", "Documents", "empty.docx"] fsDocs
        = Except.ok { fsDocs with
            files := [(["home", "Documents", "empty.docx"],
              [Block.heading "Generated Questions".data 1])] } :=
  save_to_docx_empty_outputs_heading_only envAllFail ["home", "Documents", "empty.docx"]
    fsDocs (by decide)
